import Mathlib

/-!  Verification of the presence-session tracker of the Souls Guard bot
(`src/main.py`).  The relational tables touched by the tracker are embedded
as lists of rows, timestamps as integers (seconds), and each handler as a
pure state transformer over a `World` holding the database, the scheduled
idle jobs and the log of successfully delivered messages.  The two open/close
handlers are additionally embedded as small effect programs (`Prog`) so that
the ordering between database commits and notification sends is visible and
the behaviour under notification failure can be stated. -/

namespace Souls

/-- One row of the `sessions` table (see `create table sessions` in
`DB.init`): an activity session of one user in one chat, of kind
`"chat"` or `"call"`, open while `active = true` and `end_at = none`. -/
structure Session where
  id : Nat
  chat_id : Int
  user_id : Int
  type : String
  start_at : Int
  end_at : Option Int
  ended_by : Option String
  active : Bool
deriving DecidableEq

/-- One row of the `users` table. -/
structure UserRow where
  user_id : Int
  username : Option String
  first_name : String
  last_name : Option String
  is_bot : Bool
  gender : Option String
  last_seen_at : Int
  in_group : Bool
deriving DecidableEq

/-- One row of the `stats_daily` table (keyed by `(chat_id, user_id, date)`). -/
structure StatsRow where
  messages_count : Int
  media_count : Int
  voice_count : Int
  mentions_made_count : Int
  call_time_sec : Int
deriving DecidableEq

/-- The schema defaults of `stats_daily`: every counter starts at 0. -/
def defaultStatsRow : StatsRow := ⟨0, 0, 0, 0, 0⟩

/-- The database state: the tables of `DB.init` that the presence tracker
reads or writes.  `nextId` models the `bigserial` sequence of `sessions.id`. -/
structure DBState where
  users : List UserRow
  roles : List (Int × String)
  bans : List Int
  sessions : List Session
  nextId : Nat
  stats : List ((Int × Int × Int) × StatsRow)
  active_members : List ((Int × Int) × Int)
deriving DecidableEq

/-- The world a handler acts on: the database, the names of scheduled
idle-timeout jobs (the job queue), and the delivered messages, newest first. -/
structure World where
  db : DBState
  jobs : List String
  sent : List String
deriving DecidableEq

/-- The empty database (all tables empty, the id sequence at 0). -/
def initDB : DBState := ⟨[], [], [], [], 0, [], []⟩

/-- The initial world: empty database, no jobs, nothing sent. -/
def initWorld : World := ⟨initDB, [], []⟩

/-- The local calendar date of timestamp `t` in a timezone that is `off`
seconds ahead of the epoch reference, as a day number
(`date(t at time zone TZ)` in the SQL of the source). -/
def localDate (off t : Int) : Int := (t + off).fdiv 86400

/-- Row filter of `has_active_session` / `end_session`: the row belongs to
`(chat, uid)` and is still open (`active = true`). -/
def isActiveFor (chat uid : Int) (sess : Session) : Bool :=
  sess.chat_id == chat && sess.user_id == uid && sess.active

/-- `DB.upsert_user`: insert the user row or refresh its profile columns and
`last_seen_at`; `gender` and `in_group` are never touched on conflict. -/
def upsert_user (uid : Int) (username : Option String) (fn : String)
    (ln : Option String) (isBot : Bool) (now : Int) (s : DBState) : DBState :=
  if s.users.any (fun u => u.user_id == uid) then
    { s with users := s.users.map (fun u =>
        if u.user_id == uid then
          { u with username := username, first_name := fn, last_name := ln,
                   is_bot := isBot, last_seen_at := now }
        else u) }
  else
    { s with users := s.users ++
        [⟨uid, username, fn, ln, isBot, none, now, false⟩] }

/-- `DB.set_user_in_group`: a plain SQL `update` — changes existing rows
only, inserts nothing. -/
def set_user_in_group (uid : Int) (b : Bool) (s : DBState) : DBState :=
  { s with users := s.users.map (fun u =>
      if u.user_id == uid then { u with in_group := b } else u) }

/-- `DB.set_active_member`: upsert of the `(chat, uid)` last-activity record. -/
def set_active_member (chat uid : Int) (t : Int) (s : DBState) : DBState :=
  if s.active_members.any (fun p => p.1 == (chat, uid)) then
    { s with active_members := s.active_members.map (fun p =>
        if p.1 == (chat, uid) then (p.1, t) else p) }
  else
    { s with active_members := s.active_members ++ [((chat, uid), t)] }

/-- `DB.is_banned`: is there a `bans` row for this user? -/
def is_banned (uid : Int) (s : DBState) : Bool :=
  s.bans.any (fun b => b == uid)

/-- `DB.has_any_role`: does the user hold any of the given roles? -/
def has_any_role (uid : Int) (rs : List String) (s : DBState) : Bool :=
  rs.any (fun r => s.roles.any (fun p => p.1 == uid && p.2 == r))

/-- `is_manager`: the owner, or a holder of any managerial role. -/
def is_manager (ownerId uid : Int) (s : DBState) : Bool :=
  uid == ownerId ||
    has_any_role uid
      ["senior_global", "senior_call", "senior_chat", "admin_call", "admin_chat"] s

/-- First-match lookup in the `stats_daily` association list. -/
def lookupStats (k : Int × Int × Int) :
    List ((Int × Int × Int) × StatsRow) → Option StatsRow
  | [] => none
  | p :: rest => if p.1 = k then some p.2 else lookupStats k rest

/-- SQL `insert ... on conflict do update` on `stats_daily`: replace the
first row keyed `k` using `upd`, or append `(k, ins)` if no row exists. -/
def statsUpdate (k : Int × Int × Int) (ins : StatsRow) (upd : StatsRow → StatsRow) :
    List ((Int × Int × Int) × StatsRow) → List ((Int × Int × Int) × StatsRow)
  | [] => [(k, ins)]
  | p :: rest =>
      if p.1 = k then (k, upd p.2) :: rest else p :: statsUpdate k ins upd rest

/-- The `do update` arm of `DB.bump_stat`. -/
def bumpRow (isMedia isVoice : Bool) (mentions : Int) (r : StatsRow) : StatsRow :=
  { r with
    messages_count := r.messages_count + 1,
    media_count := r.media_count + (if isMedia then 1 else 0),
    voice_count := r.voice_count + (if isVoice then 1 else 0),
    mentions_made_count := r.mentions_made_count + mentions }

/-- `DB.bump_stat`: upsert of the message counters of `(chat, uid)` for the
local date of `t`; `call_time_sec` keeps its schema default on insert and is
not touched on update. -/
def bump_stat (chat uid : Int) (isMedia isVoice : Bool) (mentions : Int)
    (off t : Int) (s : DBState) : DBState :=
  let ins : StatsRow :=
    ⟨1, if isMedia then 1 else 0, if isVoice then 1 else 0, mentions, 0⟩
  { s with stats := statsUpdate (chat, uid, localDate off t) ins (bumpRow isMedia isVoice mentions) s.stats }

/-- `DB.add_session`: `insert into sessions(...) values(..., true)` — a fresh
row with the next serial id, open, with `end_at` and `ended_by` null. -/
def add_session (chat uid : Int) (kind : String) (start_at : Int)
    (s : DBState) : DBState :=
  { s with
    sessions := s.sessions ++ [⟨s.nextId, chat, uid, kind, start_at, none, none, true⟩],
    nextId := s.nextId + 1 }

/-- `DB.has_active_session`: `select 1 from sessions where ... active=true`. -/
def has_active_session (chat uid : Int) (s : DBState) : Bool :=
  s.sessions.any (isActiveFor chat uid)

/-- The greatest `start_at` among the open sessions of `(chat, uid)` — the
row the CTE of `DB.end_session` picks by `order by start_at desc limit 1`. -/
def maxActiveStart (chat uid : Int) : List Session → Option Int
  | [] => none
  | sess :: rest =>
      let r := maxActiveStart chat uid rest
      if isActiveFor chat uid sess then
        match r with
        | none => some sess.start_at
        | some m => some (max sess.start_at m)
      else r

/-- The closed version of a session row: the `update ... set` of
`DB.end_session`. -/
def closeSess (eb : String) (t : Int) (sess : Session) : Session :=
  { sess with active := false, end_at := some t, ended_by := some eb }

/-- Close the first open `(chat, uid)` row whose `start_at` equals `m`,
returning the row's `(start_at, type)` and the updated table. -/
def closeFirstAt (chat uid : Int) (m : Int) (eb : String) (t : Int) :
    List Session → Option (Int × String) × List Session
  | [] => (none, [])
  | sess :: rest =>
      if isActiveFor chat uid sess && sess.start_at == m then
        (some (sess.start_at, sess.type), closeSess eb t sess :: rest)
      else
        let p := closeFirstAt chat uid m eb t rest
        (p.1, sess :: p.2)

/-- `DB.end_session`: close the most recently started open session of
`(chat, uid)` (none if there is none), returning its `start_at` and `type`. -/
def end_session (chat uid : Int) (eb : String) (t : Int) (s : DBState) :
    Option (Int × String) × DBState :=
  match maxActiveStart chat uid s.sessions with
  | none => (none, s)
  | some m =>
      let p := closeFirstAt chat uid m eb t s.sessions
      (p.1, { s with sessions := p.2 })

/-- The clipped whole-second duration the aggregation loop adds for one call
session: `end_at` (or `now` for a still-open row) minus `start_at`, counted
only when positive. -/
def callDur (now : Int) (sess : Session) : Int :=
  let delta := (sess.end_at.getD now) - sess.start_at
  if delta > 0 then delta else 0

/-- The rows `DB.update_call_time_aggregate_for_day` selects: call sessions
of `(chat, uid)` whose `start_at` falls on local date `d`. -/
def callRowsFor (chat uid d off : Int) (l : List Session) : List Session :=
  l.filter (fun sess =>
    sess.chat_id == chat && sess.user_id == uid && sess.type == "call" &&
      localDate off sess.start_at == d)

/-- Declarative total: the sum of the positive clipped durations of the
selected call sessions (open ones counted up to `now`). -/
def callTotal (chat uid d off now : Int) (l : List Session) : Int :=
  ((callRowsFor chat uid d off l).map (callDur now)).sum

/-- `DB.update_call_time_aggregate_for_day`: recompute the accumulated call
seconds of `(chat, uid)` on local date `d` by the source's loop over the
selected rows and overwrite `call_time_sec` of the day's `stats_daily` row
(upserting the row with schema defaults if absent). -/
def update_call_time_aggregate_for_day (chat uid d off now : Int)
    (s : DBState) : DBState :=
  let rows := callRowsFor chat uid d off s.sessions
  let total := rows.foldl
    (fun acc r =>
      let delta := (r.end_at.getD now) - r.start_at
      if delta > 0 then acc + delta else acc) 0
  let ins : StatsRow := { defaultStatsRow with call_time_sec := total }
  let upd : StatsRow → StatsRow := fun r => { r with call_time_sec := total }
  { s with stats := statsUpdate (chat, uid, d) ins upd s.stats }

/-- Messages the handlers send (abbreviated to their fixed prefixes). -/
def msgNotForYou : String := "این دکمه برای شما نیست رفیق!"

/-- Reply of the open paths when a session is already open. -/
def msgAlreadyOpen : String := "الان هم یک سشن باز داری!"

/-- Callback answer after a successful session registration. -/
def msgRegistered : String := "ثبت شد"

/-- Text of the edited message after opening a session of `kind`. -/
def msgStarted (kind : String) : String :=
  "شروع فعالیت " ++ (if kind == "call" then "کال" else "چت")

/-- Guard-chat announcement of an opened session of `kind`. -/
def msgGuardOpen (kind : String) : String :=
  "شروع سشن " ++ (if kind == "call" then "کال" else "چت")

/-- The inline check-in prompt (`نوع فعالیتت رو انتخاب کن`). -/
def sessionPrompt : String := "نوع فعالیتت رو انتخاب کن:"

/-- Reply of `cmd_register_close` when no session is open. -/
def msgNoSession : String := "سشنی باز نیست."

/-- Reply of `cmd_register_close` on success. -/
def msgCloseBye : String := "پایان فعالیت شما گزارش شد، خسته نباشی!"

/-- Guard-chat announcement of a user-closed session of type `t`. -/
def msgGuardClose (t : String) : String := "پایان سشن " ++ t

/-- Guard-chat announcement of an idle-timeout auto-close of type `t`. -/
def msgAutoEnd (t : String) : String := "پایان خودکار سشن " ++ t

/-- Name of the per-user idle job (`idle_{MAIN_CHAT_ID}_{user_id}`). -/
def idleJobName (mc uid : Int) : String :=
  "idle_" ++ toString mc ++ "_" ++ toString uid

/-- `schedule_idle_job`: drop any pending job of the same name, then queue a
fresh 300-second idle-timeout job for this user. -/
def schedule_idle_job (mc uid : Int) (w : World) : World :=
  { w with jobs := idleJobName mc uid :: w.jobs.filter (fun j => j != idleJobName mc uid) }

/-- `idle_timeout_job`: if the user still has an active session, end it with
`ended_by = "auto"` and announce the auto-close; otherwise do nothing. -/
def idle_timeout_job (chat uid : Int) (now : Int) (w : World) : World :=
  if has_active_session chat uid w.db then
    let p := end_session chat uid "auto" now w.db
    match p.1 with
    | some r => { w with db := p.2, sent := msgAutoEnd r.2 :: w.sent }
    | none => { w with db := p.2 }
  else w

/-- Effect programs: the straight-line body of a session handler, recording
each database access, message send and scheduling action in source order.
`tryNotif` is a send wrapped in `try/except` (its failure is swallowed). -/
inductive Prog (α : Type) where
  | done (a : α)
  | hasActiveQ (k : Bool → Prog α)
  | addS (kind : String) (t : Int) (k : Nat → Prog α)
  | endS (eb : String) (t : Int) (k : Option (Int × String) → Prog α)
  | notif (txt : String) (k : Prog α)
  | tryNotif (txt : String) (k : Prog α)
  | sched (k : Prog α)

/-- Run an effect program for user `uid` in chat `mc`.  `ok` says whether
message delivery succeeds; an unprotected send that fails raises, aborting
the rest of the handler (result `none`) — database writes already made stay. -/
def runProg (mc uid : Int) (ok : Bool) : Prog α → World → Option α × World
  | .done a, w => (some a, w)
  | .hasActiveQ k, w => runProg mc uid ok (k (has_active_session mc uid w.db)) w
  | .addS kind t k, w =>
      runProg mc uid ok (k w.db.nextId) { w with db := add_session mc uid kind t w.db }
  | .endS eb t k, w =>
      let p := end_session mc uid eb t w.db
      runProg mc uid ok (k p.1) { w with db := p.2 }
  | .notif txt k, w =>
      if ok then runProg mc uid ok k { w with sent := txt :: w.sent } else (none, w)
  | .tryNotif txt k, w =>
      if ok then runProg mc uid ok k { w with sent := txt :: w.sent }
      else runProg mc uid ok k w
  | .sched k, w => runProg mc uid ok k (schedule_idle_job mc uid w)

/-- The body of `cb_session_select` after the author check: if a session is
already open just answer; otherwise insert the row, answer, edit the prompt
(failure swallowed), announce to the guard chat and schedule the idle job.
Returns the id of the created row, if any. -/
def cbSelectProg (kind : String) (now : Int) : Prog (Option Nat) :=
  .hasActiveQ (fun b =>
    if b then .notif msgAlreadyOpen (.done none)
    else .addS kind now (fun i =>
      .notif msgRegistered (.tryNotif (msgStarted kind)
        (.notif (msgGuardOpen kind) (.sched (.done (some i)))))))

/-- `cb_session_select`: the session-kind callback.  A press by anyone but
the prompted author is rejected; otherwise the body `cbSelectProg` runs. -/
def cb_session_select (mc : Int) (kind : String) (authorId fromId now : Int)
    (w : World) : Option (Option Nat) × World :=
  if fromId != authorId then (none, { w with sent := msgNotForYou :: w.sent })
  else runProg mc fromId true (cbSelectProg kind now) w

/-- The body of `cmd_register_close` after its permission checks: end the
latest open session, then report (no row: `msgNoSession`; else the farewell
reply and the guard-chat announcement naming the session's type). -/
def closeProg (now : Int) : Prog (Option (Int × String)) :=
  .endS "user" now (fun row =>
    match row with
    | none => .notif msgNoSession (.done none)
    | some r => .notif msgCloseBye (.notif (msgGuardClose r.2) (.done (some r))))

/-- `cmd_register_close`: in the main chat, a manager's check-out command
runs `closeProg`; anyone else (or another chat) is ignored. -/
def cmd_register_close (mc ownerId : Int) (chatId uid now : Int) (w : World) :
    Option (Option (Int × String)) × World :=
  if chatId != mc then (none, w)
  else if !(is_manager ownerId uid w.db) then (none, w)
  else runProg mc uid true (closeProg now) w

/-- `cmd_register_open`: show the kind-selection prompt, or tell the manager
a session is already open.  Touches no table. -/
def cmd_register_open (mc ownerId : Int) (chatId uid : Int) (w : World) : World :=
  if chatId != mc then w
  else if !(is_manager ownerId uid w.db) then w
  else if has_active_session mc uid w.db then { w with sent := msgAlreadyOpen :: w.sent }
  else { w with sent := sessionPrompt :: w.sent }

/-- `maybe_prompt_session`: the group message handler.  Record the user and
their last activity; stop there if banned; otherwise bump the daily message
counters, and for managers show the check-in prompt when no session is open
and (re)schedule the idle job; finally mark the user as in the group. -/
def maybe_prompt_session (mc ownerId off : Int) (chatId uid : Int) (isBot : Bool)
    (username : Option String) (fn : String) (ln : Option String)
    (isMedia isVoice : Bool) (mentions : Int) (now : Int) (w : World) : World :=
  if chatId != mc then w
  else if isBot then w
  else
    let db1 := set_active_member mc uid now (upsert_user uid username fn ln isBot now w.db)
    if is_banned uid db1 then { w with db := db1 }
    else
      let db2 := bump_stat mc uid isMedia isVoice mentions off now db1
      let w2 := { w with db := db2 }
      let w3 :=
        if is_manager ownerId uid db2 then
          let wP := if has_active_session mc uid db2 then w2
                    else { w2 with sent := sessionPrompt :: w2.sent }
          schedule_idle_job mc uid wP
        else w2
      { w3 with db := set_user_in_group uid true w3.db }

/-- The tracker-relevant operations a run of the bot interleaves: group
messages (heartbeats), the open callback, the open/close commands, and the
firing of an idle-timeout job. -/
inductive Op where
  | msg (chatId uid : Int) (isBot : Bool) (username : Option String)
      (fn : String) (ln : Option String) (isMedia isVoice : Bool)
      (mentions : Int) (now : Int)
  | openSel (kind : String) (authorId fromId : Int) (now : Int)
  | regOpen (chatId uid : Int)
  | regClose (chatId uid : Int) (now : Int)
  | idle (chatId uid : Int) (now : Int)

/-- One atomic handler execution. -/
def step (mc ownerId off : Int) : Op → World → World
  | .msg chatId uid isBot un fn ln im iv men now, w =>
      maybe_prompt_session mc ownerId off chatId uid isBot un fn ln im iv men now w
  | .openSel kind a f now, w => (cb_session_select mc kind a f now w).2
  | .regOpen chatId uid, w => cmd_register_open mc ownerId chatId uid w
  | .regClose chatId uid now, w => (cmd_register_close mc ownerId chatId uid now w).2
  | .idle chatId uid now, w => idle_timeout_job chatId uid now w

/-- Run a whole operation sequence from the initial world. -/
def runOps (mc ownerId off : Int) (ops : List Op) : World :=
  ops.foldl (fun w op => step mc ownerId off op w) initWorld

/-- Number of open sessions of `(chat, uid)` in the table. -/
def activeCount (chat uid : Int) (l : List Session) : Nat :=
  (l.filter (isActiveFor chat uid)).length

/-- Number of open sessions of `(chat, uid)` of a given kind. -/
def activeKindCount (chat uid : Int) (kind : String) (l : List Session) : Nat :=
  (l.filter (fun sess => isActiveFor chat uid sess && sess.type == kind)).length

/-- The `in_group` flag of the user's row, if the row exists. -/
def userInGroup (uid : Int) (s : DBState) : Option Bool :=
  (s.users.find? (fun u => u.user_id == uid)).map (fun u => u.in_group)

/-- A world with one open chat session of user 7 in chat 5, opened at time 0. -/
def wChatOpen : World := (cb_session_select 5 "chat" 7 7 0 initWorld).2

/-- A world with one open call session of user 9 in chat 5, opened at time 0. -/
def wCallOpen : World := (cb_session_select 5 "call" 9 9 0 initWorld).2

/-- A world with one open chat session of user 11, opened at time 10. -/
def wChatOpen11 : World := (cb_session_select 5 "chat" 11 11 10 initWorld).2

/-- A database holding one still-open call session of user 9, started at 0. -/
def dbOpenCall : DBState :=
  { initDB with sessions := [⟨0, 5, 9, "call", 0, none, none, true⟩] }

/-- A database in which user 7 is on the ban list. -/
def dbBanned : DBState := { initDB with bans := [7] }

/-- A world whose database has user 7 banned. -/
def wBanned : World := ⟨dbBanned, [], []⟩

/-- A database holding two open sessions of user 9 (a state `end_session`
must handle even though the handlers never produce it). -/
def dbTwoOpen : DBState :=
  { initDB with sessions :=
      [⟨0, 5, 9, "chat", 1, none, none, true⟩, ⟨1, 5, 9, "call", 3, none, none, true⟩] }

theorem upsert_user_sessions (uid : Int) (un : Option String) (fn : String)
    (ln : Option String) (b : Bool) (now : Int) (s : DBState) :
    (upsert_user uid un fn ln b now s).sessions = s.sessions := by
  unfold upsert_user; split <;> rfl

theorem upsert_user_bans (uid : Int) (un : Option String) (fn : String)
    (ln : Option String) (b : Bool) (now : Int) (s : DBState) :
    (upsert_user uid un fn ln b now s).bans = s.bans := by
  unfold upsert_user; split <;> rfl

theorem upsert_user_stats (uid : Int) (un : Option String) (fn : String)
    (ln : Option String) (b : Bool) (now : Int) (s : DBState) :
    (upsert_user uid un fn ln b now s).stats = s.stats := by
  unfold upsert_user; split <;> rfl

theorem set_active_member_sessions (chat uid t : Int) (s : DBState) :
    (set_active_member chat uid t s).sessions = s.sessions := by
  unfold set_active_member; split <;> rfl

theorem set_active_member_bans (chat uid t : Int) (s : DBState) :
    (set_active_member chat uid t s).bans = s.bans := by
  unfold set_active_member; split <;> rfl

theorem set_active_member_stats (chat uid t : Int) (s : DBState) :
    (set_active_member chat uid t s).stats = s.stats := by
  unfold set_active_member; split <;> rfl

theorem set_active_member_users (chat uid t : Int) (s : DBState) :
    (set_active_member chat uid t s).users = s.users := by
  unfold set_active_member; split <;> rfl

theorem set_user_in_group_sessions (uid : Int) (b : Bool) (s : DBState) :
    (set_user_in_group uid b s).sessions = s.sessions := rfl

theorem bump_stat_sessions (chat uid : Int) (im iv : Bool) (men off t : Int)
    (s : DBState) : (bump_stat chat uid im iv men off t s).sessions = s.sessions := rfl

theorem is_banned_of_bans_eq (uid : Int) (s s' : DBState) (h : s.bans = s'.bans) :
    is_banned uid s = is_banned uid s' := by
  unfold is_banned; rw [h]

theorem schedule_idle_job_db (mc uid : Int) (w : World) :
    (schedule_idle_job mc uid w).db = w.db := rfl

theorem cbSelect_run_true (mc uid : Int) (kind : String) (now : Int) (w : World) :
    runProg mc uid true (cbSelectProg kind now) w =
      if has_active_session mc uid w.db then
        (some none, { w with sent := msgAlreadyOpen :: w.sent })
      else
        (some (some w.db.nextId),
          schedule_idle_job mc uid
            { w with db := add_session mc uid kind now w.db,
                     sent := msgGuardOpen kind :: msgStarted kind :: msgRegistered :: w.sent }) := by
  cases h : has_active_session mc uid w.db <;> simp [cbSelectProg, runProg, h]

theorem cbSelect_run_false (mc uid : Int) (kind : String) (now : Int) (w : World) :
    runProg mc uid false (cbSelectProg kind now) w =
      if has_active_session mc uid w.db then (none, w)
      else (none, { w with db := add_session mc uid kind now w.db }) := by
  cases h : has_active_session mc uid w.db <;> simp [cbSelectProg, runProg, h]

theorem closeProg_run_true (mc uid : Int) (now : Int) (w : World) :
    runProg mc uid true (closeProg now) w =
      match (end_session mc uid "user" now w.db).1 with
      | none => (some none,
          { w with db := (end_session mc uid "user" now w.db).2,
                   sent := msgNoSession :: w.sent })
      | some r => (some (some r),
          { w with db := (end_session mc uid "user" now w.db).2,
                   sent := msgGuardClose r.2 :: msgCloseBye :: w.sent }) := by
  cases h : (end_session mc uid "user" now w.db).1 <;> simp [closeProg, runProg, h]

theorem closeProg_run_false (mc uid : Int) (now : Int) (w : World) :
    runProg mc uid false (closeProg now) w =
      (none, { w with db := (end_session mc uid "user" now w.db).2 }) := by
  cases h : (end_session mc uid "user" now w.db).1 <;> simp [closeProg, runProg, h]

theorem sel_refusal (mc uid : Int) (kind : String) (now : Int) (w : World)
    (h : has_active_session mc uid w.db = true) :
    cb_session_select mc kind uid uid now w
      = (some none, { w with sent := msgAlreadyOpen :: w.sent }) := by
  unfold cb_session_select
  rw [if_neg (by simp), cbSelect_run_true, if_pos h]

theorem sel_open (mc uid : Int) (kind : String) (now : Int) (w : World)
    (h : has_active_session mc uid w.db = false) :
    cb_session_select mc kind uid uid now w
      = (some (some w.db.nextId),
          schedule_idle_job mc uid
            { w with db := add_session mc uid kind now w.db,
                     sent := msgGuardOpen kind :: msgStarted kind :: msgRegistered :: w.sent }) := by
  unfold cb_session_select
  rw [if_neg (by simp), cbSelect_run_true, if_neg (by simp [h])]

theorem has_active_add_session (mc uid : Int) (kind : String) (t : Int) (s : DBState) :
    has_active_session mc uid (add_session mc uid kind t s) = true := by
  simp [has_active_session, add_session, isActiveFor]

theorem maxActiveStart_eq_none (chat uid : Int) (l : List Session)
    (h : ∀ sess ∈ l, isActiveFor chat uid sess = false) :
    maxActiveStart chat uid l = none := by
  induction l with
  | nil => rfl
  | cons sess rest ih =>
      have hs := h sess (List.mem_cons_self sess rest)
      have hr := ih (fun x hx => h x (List.mem_cons_of_mem sess hx))
      simp [maxActiveStart, hs, hr]

theorem end_session_of_no_active (chat uid : Int) (eb : String) (t : Int)
    (s : DBState) (h : has_active_session chat uid s = false) :
    end_session chat uid eb t s = (none, s) := by
  have hall : ∀ sess ∈ s.sessions, isActiveFor chat uid sess = false := by
    simpa [has_active_session, List.any_eq_false] using h
  unfold end_session
  rw [maxActiveStart_eq_none chat uid s.sessions hall]

/-- C6: closing when no session is open is a no-op.  `DB.end_session` finds
no row and leaves the database untouched, and the `cmd_register_close`
handler (whatever the permission outcome) reports no closed row and leaves
the database exactly as it was — no error path exists. -/
theorem C6_close_nothing_noop (mc ownerId uid now : Int) (eb : String) (w : World)
    (h : has_active_session mc uid w.db = false) :
    end_session mc uid eb now w.db = (none, w.db)
    ∧ (cmd_register_close mc ownerId mc uid now w).1.getD none = none
    ∧ (cmd_register_close mc ownerId mc uid now w).2.db = w.db := by
  have hend := end_session_of_no_active mc uid eb now w.db h
  have hendU := end_session_of_no_active mc uid "user" now w.db h
  refine ⟨hend, ?_, ?_⟩ <;>
  · unfold cmd_register_close
    rw [if_neg (by simp)]
    cases hm : is_manager ownerId uid w.db <;>
      simp [closeProg_run_true, hendU]

/-- C6 witness: closing for user 7 on the empty initial state. -/
theorem C6_close_nothing_noop_witness :
    end_session 5 7 "user" 3 initWorld.db = (none, initWorld.db)
    ∧ (cmd_register_close 5 7 5 7 3 initWorld).1.getD none = none
    ∧ (cmd_register_close 5 7 5 7 3 initWorld).2.db = initWorld.db :=
  C6_close_nothing_noop 5 7 7 3 "user" initWorld (by decide)

/-- C7: both the open callback and the close command commit the session row
change before any notification is emitted, so the recorded session state is
the same whether every notification succeeds or delivery fails (the failed
run still shows the committed insert / close, with no rollback or retry). -/
theorem C7_commit_precedes_notification (mc uid : Int) (kind : String)
    (now : Int) (w : World) (ok : Bool) :
    ((runProg mc uid ok (cbSelectProg kind now) w).2.db
        = (runProg mc uid true (cbSelectProg kind now) w).2.db)
    ∧ ((runProg mc uid ok (closeProg now) w).2.db
        = (runProg mc uid true (closeProg now) w).2.db)
    ∧ ((runProg mc uid false (cbSelectProg kind now) w).2.db
        = if has_active_session mc uid w.db then w.db
          else add_session mc uid kind now w.db)
    ∧ ((runProg mc uid false (closeProg now) w).2.db
        = (end_session mc uid "user" now w.db).2) := by
  have h3 : (runProg mc uid false (cbSelectProg kind now) w).2.db
      = if has_active_session mc uid w.db then w.db
        else add_session mc uid kind now w.db := by
    rw [cbSelect_run_false]
    cases h : has_active_session mc uid w.db <;> simp [h]
  have h4 : (runProg mc uid false (closeProg now) w).2.db
      = (end_session mc uid "user" now w.db).2 := by
    rw [closeProg_run_false]
  have h1T : (runProg mc uid true (cbSelectProg kind now) w).2.db
      = if has_active_session mc uid w.db then w.db
        else add_session mc uid kind now w.db := by
    rw [cbSelect_run_true]
    cases h : has_active_session mc uid w.db <;> simp [h, schedule_idle_job_db]
  have h2T : (runProg mc uid true (closeProg now) w).2.db
      = (end_session mc uid "user" now w.db).2 := by
    rw [closeProg_run_true]
    cases h : (end_session mc uid "user" now w.db).1 <;> simp [h]
  cases ok
  · exact ⟨h3.trans h1T.symm, h4.trans h2T.symm, h3, h4⟩
  · exact ⟨rfl, rfl, h3, h4⟩

/-- C3 counterexample: with a chat session open for user 7, pressing the
call button does not close the chat session with reason
"switched-activity" and does not open a call session — the database is
unchanged: the still-open chat row is the only session row. -/
theorem C3_counterexample :
    (cb_session_select 5 "call" 7 7 2 wChatOpen).2.db = wChatOpen.db
    ∧ wChatOpen.db.sessions = [⟨0, 5, 7, "chat", 0, none, none, true⟩]
    ∧ (cb_session_select 5 "call" 7 7 2 wChatOpen).2.db.sessions.all
        (fun sess => sess.ended_by != some "switched-activity"
          && sess.type != "call") = true := by
  decide

/-- C3 amended: `open(user, Call)` while any session (in particular a Chat
session) is open for the same user is rejected: the handler only answers
that a session is already open, closes nothing, creates nothing, and leaves
the database unchanged. -/
theorem C3_amended_open_other_kind_rejected (mc uid : Int) (kind : String)
    (now : Int) (w : World) (h : has_active_session mc uid w.db = true) :
    cb_session_select mc kind uid uid now w
      = (some none, { w with sent := msgAlreadyOpen :: w.sent }) :=
  sel_refusal mc uid kind now w h

/-- C3 amended witness: the call-button press on the open-chat state. -/
theorem C3_amended_witness :
    cb_session_select 5 "call" 7 7 2 wChatOpen
      = (some none, { wChatOpen with sent := msgAlreadyOpen :: wChatOpen.sent }) :=
  C3_amended_open_other_kind_rejected 5 7 "call" 2 wChatOpen (by decide)

/-- C4 counterexample: opening twice with no close in between does not
yield the same session id both times — the first press creates row 0, the
second yields no id at all (it is refused); the refused press performs no
write whatsoever (in particular no heartbeat: session rows have no
last-activity column to update). -/
theorem C4_counterexample :
    (cb_session_select 5 "chat" 11 11 10 initWorld).1 = some (some 0)
    ∧ (cb_session_select 5 "chat" 11 11 20 wChatOpen11).1 = some none
    ∧ (cb_session_select 5 "chat" 11 11 20 wChatOpen11).2.db = wChatOpen11.db := by
  decide

/-- C4 amended: a second open with no intervening close creates no
duplicate row and leaves the sessions table (hence `start_at`) untouched,
but it does not behave as a heartbeat and returns no session id: it is
refused with the already-open answer, the database unchanged. -/
theorem C4_amended_second_open_refused (mc uid : Int) (kind : String)
    (t0 t1 : Int) (w : World) (h : has_active_session mc uid w.db = false) :
    (cb_session_select mc kind uid uid t0 w).1 = some (some w.db.nextId)
    ∧ (cb_session_select mc kind uid uid t0 w).2.db = add_session mc uid kind t0 w.db
    ∧ cb_session_select mc kind uid uid t1 (cb_session_select mc kind uid uid t0 w).2
        = (some none,
           { (cb_session_select mc kind uid uid t0 w).2 with
               sent := msgAlreadyOpen :: (cb_session_select mc kind uid uid t0 w).2.sent }) := by
  have h1 := sel_open mc uid kind t0 w h
  have hdb : (cb_session_select mc kind uid uid t0 w).2.db
      = add_session mc uid kind t0 w.db := by
    rw [h1, schedule_idle_job_db]
  refine ⟨by rw [h1], hdb, ?_⟩
  exact sel_refusal mc uid kind t1 _ (by rw [hdb, has_active_add_session])

theorem maxActiveStart_none_forall (chat uid : Int) (l : List Session)
    (h : maxActiveStart chat uid l = none) :
    ∀ sess ∈ l, isActiveFor chat uid sess = false := by
  induction l with
  | nil => intro sess hs; cases hs
  | cons y rest ih =>
      intro sess hs
      unfold maxActiveStart at h
      cases ha : isActiveFor chat uid y with
      | true =>
          exfalso
          rw [ha] at h
          cases hr : maxActiveStart chat uid rest <;> simp [hr] at h
      | false =>
          rw [ha] at h; simp at h
          rcases List.mem_cons.mp hs with rfl | hmem
          · exact ha
          · exact ih h sess hmem

theorem maxActiveStart_le (chat uid : Int) (l : List Session) (m : Int)
    (h : maxActiveStart chat uid l = some m) :
    ∀ sess ∈ l, isActiveFor chat uid sess = true → sess.start_at ≤ m := by
  induction l generalizing m with
  | nil => intro sess hs; cases hs
  | cons y rest ih =>
      intro sess hs hact
      unfold maxActiveStart at h
      cases ha : isActiveFor chat uid y with
      | false =>
          rw [ha] at h; simp at h
          rcases List.mem_cons.mp hs with rfl | hmem
          · rw [hact] at ha; cases ha
          · exact ih m h sess hmem hact
      | true =>
          rw [ha] at h
          cases hr : maxActiveStart chat uid rest with
          | none =>
              rw [hr] at h; simp at h
              rcases List.mem_cons.mp hs with rfl | hmem
              · omega
              · rw [(maxActiveStart_none_forall chat uid rest hr) sess hmem] at hact
                cases hact
          | some m' =>
              rw [hr] at h; simp at h
              rcases List.mem_cons.mp hs with rfl | hmem
              · omega
              · have := ih m' hr sess hmem hact
                omega

theorem maxActiveStart_mem (chat uid : Int) (l : List Session) (m : Int)
    (h : maxActiveStart chat uid l = some m) :
    ∃ sess ∈ l, isActiveFor chat uid sess = true ∧ sess.start_at = m := by
  induction l generalizing m with
  | nil => cases h
  | cons y rest ih =>
      unfold maxActiveStart at h
      cases ha : isActiveFor chat uid y with
      | false =>
          rw [ha] at h; simp at h
          obtain ⟨sess, hmem, hact, hst⟩ := ih m h
          exact ⟨sess, List.mem_cons_of_mem y hmem, hact, hst⟩
      | true =>
          rw [ha] at h
          cases hr : maxActiveStart chat uid rest with
          | none =>
              rw [hr] at h; simp at h
              exact ⟨y, List.mem_cons_self y rest, ha, h⟩
          | some m' =>
              rw [hr] at h; simp at h
              rcases max_choice y.start_at m' with hmax | hmax
              · exact ⟨y, List.mem_cons_self y rest, ha, by omega⟩
              · obtain ⟨sess, hmem, hact, hst⟩ := ih m' hr
                exact ⟨sess, List.mem_cons_of_mem y hmem, hact, by omega⟩

theorem exists_first_hit {α : Type} (p : α → Bool) (l : List α) (x : α)
    (hx : x ∈ l) (hp : p x = true) :
    ∃ i sess, l.get? i = some sess ∧ p sess = true
      ∧ ∀ j, j < i → ∀ y, l.get? j = some y → p y = false := by
  induction l with
  | nil => cases hx
  | cons z rest ih =>
      cases hz : p z with
      | true =>
          exact ⟨0, z, rfl, hz, fun j hj => absurd hj (Nat.not_lt_zero j)⟩
      | false =>
          have hxr : x ∈ rest := by
            rcases List.mem_cons.mp hx with rfl | hmem
            · rw [hp] at hz; cases hz
            · exact hmem
          obtain ⟨i, sess, hget, hps, hfirst⟩ := ih hxr
          refine ⟨i + 1, sess, hget, hps, ?_⟩
          intro j hj y hgety
          cases j with
          | zero => cases hgety; exact hz
          | succ j' => exact hfirst j' (Nat.lt_of_succ_lt_succ hj) y hgety

theorem closeFirstAt_length (chat uid : Int) (m : Int) (eb : String) (t : Int)
    (l : List Session) :
    (closeFirstAt chat uid m eb t l).2.length = l.length := by
  induction l with
  | nil => rfl
  | cons y rest ih =>
      unfold closeFirstAt
      split <;> simp [ih]

theorem closeFirstAt_spec (chat uid : Int) (m : Int) (eb : String) (t : Int)
    (l : List Session) (i : Nat) (sess : Session)
    (hget : l.get? i = some sess)
    (hhit : (isActiveFor chat uid sess && sess.start_at == m) = true)
    (hfirst : ∀ j, j < i → ∀ y, l.get? j = some y →
        (isActiveFor chat uid y && y.start_at == m) = false) :
    (closeFirstAt chat uid m eb t l).1 = some (sess.start_at, sess.type)
    ∧ (closeFirstAt chat uid m eb t l).2.get? i = some (closeSess eb t sess)
    ∧ ∀ j, j ≠ i → (closeFirstAt chat uid m eb t l).2.get? j = l.get? j := by
  induction l generalizing i with
  | nil => cases hget
  | cons y rest ih =>
      cases i with
      | zero =>
          cases hget
          unfold closeFirstAt
          rw [if_pos hhit]
          refine ⟨rfl, rfl, ?_⟩
          intro j hj
          cases j with
          | zero => exact absurd rfl hj
          | succ j' => rfl
      | succ i' =>
          have hz : (isActiveFor chat uid y && y.start_at == m) = false :=
            hfirst 0 (Nat.succ_pos i') y rfl
          have hfirst' : ∀ j, j < i' → ∀ x, rest.get? j = some x →
              (isActiveFor chat uid x && x.start_at == m) = false := by
            intro j hj x hgetx
            exact hfirst (j + 1) (Nat.succ_lt_succ hj) x hgetx
          obtain ⟨h1, h2, h3⟩ := ih i' hget hfirst'
          unfold closeFirstAt
          rw [if_neg (by simp [hz])]
          refine ⟨h1, h2, ?_⟩
          intro j hj
          cases j with
          | zero => rfl
          | succ j' => exact h3 j' (fun hc => hj (by rw [hc]))

theorem get?_mem_sessions {l : List Session} {i : Nat} {sess : Session}
    (h : l.get? i = some sess) : sess ∈ l :=
  List.get?_mem h

theorem end_session_at (chat uid : Int) (eb : String) (t : Int) (s : DBState)
    (i : Nat) (sess : Session) (hget : s.sessions.get? i = some sess)
    (hact : isActiveFor chat uid sess = true)
    (hmax : ∀ x ∈ s.sessions, isActiveFor chat uid x = true →
        x.start_at ≤ sess.start_at)
    (hfirst : ∀ j, j < i → ∀ x, s.sessions.get? j = some x →
        (isActiveFor chat uid x && x.start_at == sess.start_at) = false) :
    (end_session chat uid eb t s).1 = some (sess.start_at, sess.type)
    ∧ (end_session chat uid eb t s).2.sessions.get? i = some (closeSess eb t sess)
    ∧ (∀ j, j ≠ i → (end_session chat uid eb t s).2.sessions.get? j = s.sessions.get? j)
    ∧ (end_session chat uid eb t s).2.sessions.length = s.sessions.length
    ∧ (end_session chat uid eb t s).2.stats = s.stats := by
  have hmem : sess ∈ s.sessions := get?_mem_sessions hget
  have hm : maxActiveStart chat uid s.sessions = some sess.start_at := by
    cases hcase : maxActiveStart chat uid s.sessions with
    | none =>
        rw [maxActiveStart_none_forall chat uid s.sessions hcase sess hmem] at hact
        cases hact
    | some m =>
        have hle : sess.start_at ≤ m := maxActiveStart_le chat uid s.sessions m hcase sess hmem hact
        obtain ⟨x, hxmem, hxact, hxst⟩ := maxActiveStart_mem chat uid s.sessions m hcase
        have hge : m ≤ sess.start_at := hxst ▸ hmax x hxmem hxact
        have : m = sess.start_at := le_antisymm hge hle
        rw [this]
  have hhit : (isActiveFor chat uid sess && sess.start_at == sess.start_at) = true := by
    simp [hact]
  obtain ⟨h1, h2, h3⟩ := closeFirstAt_spec chat uid sess.start_at eb t s.sessions i sess hget hhit hfirst
  unfold end_session
  rw [hm]
  exact ⟨h1, h2, h3, closeFirstAt_length chat uid sess.start_at eb t s.sessions, rfl⟩

theorem end_session_spec (chat uid : Int) (eb : String) (t : Int) (s : DBState)
    (h : has_active_session chat uid s = true) :
    ∃ i sess, s.sessions.get? i = some sess
      ∧ isActiveFor chat uid sess = true
      ∧ (∀ x ∈ s.sessions, isActiveFor chat uid x = true → x.start_at ≤ sess.start_at)
      ∧ (end_session chat uid eb t s).1 = some (sess.start_at, sess.type)
      ∧ (end_session chat uid eb t s).2.sessions.get? i = some (closeSess eb t sess)
      ∧ (∀ j, j ≠ i → (end_session chat uid eb t s).2.sessions.get? j = s.sessions.get? j)
      ∧ (end_session chat uid eb t s).2.sessions.length = s.sessions.length := by
  obtain ⟨x, hxmem, hxact⟩ := List.any_eq_true.mp h
  cases hcase : maxActiveStart chat uid s.sessions with
  | none =>
      rw [maxActiveStart_none_forall chat uid s.sessions hcase x hxmem] at hxact
      cases hxact
  | some m =>
      obtain ⟨y, hymem, hyact, hyst⟩ := maxActiveStart_mem chat uid s.sessions m hcase
      have hyhit : (fun z => isActiveFor chat uid z && z.start_at == m) y = true := by
        simp [hyact, hyst]
      obtain ⟨i, sess, hget, hhit, hfirst⟩ :=
        exists_first_hit (fun z => isActiveFor chat uid z && z.start_at == m) s.sessions y hymem hyhit
      have hact : isActiveFor chat uid sess = true := by
        simpa using (Bool.and_eq_true _ _ |>.mp hhit).1
      have hst : sess.start_at = m := by
        have := (Bool.and_eq_true _ _ |>.mp hhit).2
        simpa using this
      have hmax : ∀ z ∈ s.sessions, isActiveFor chat uid z = true →
          z.start_at ≤ sess.start_at := by
        intro z hz hzact
        rw [hst]
        exact maxActiveStart_le chat uid s.sessions m hcase z hz hzact
      have hfirst' : ∀ j, j < i → ∀ z, s.sessions.get? j = some z →
          (isActiveFor chat uid z && z.start_at == sess.start_at) = false := by
        intro j hj z hgz
        have := hfirst j hj z hgz
        rw [hst]
        simpa using this
      obtain ⟨e1, e2, e3, e4, _⟩ := end_session_at chat uid eb t s i sess hget hact hmax hfirst'
      exact ⟨i, sess, hget, hact, hmax, e1, e2, e3, e4⟩

/-- C8: when the user has open sessions, one `end_session` call closes
exactly one of them — one with the maximum `start_at` — setting `end_at`
and `ended_by`, returning that row's `start_at` and `type`, and leaving
every other session row (by position) unchanged; with no open session it
returns no row and modifies nothing. -/
theorem C8_end_session_closes_latest (chat uid : Int) (eb : String) (t : Int)
    (s : DBState) :
    (has_active_session chat uid s = false → end_session chat uid eb t s = (none, s))
    ∧ (has_active_session chat uid s = true →
        ∃ i sess, s.sessions.get? i = some sess
          ∧ isActiveFor chat uid sess = true
          ∧ (∀ x ∈ s.sessions, isActiveFor chat uid x = true →
              x.start_at ≤ sess.start_at)
          ∧ (end_session chat uid eb t s).1 = some (sess.start_at, sess.type)
          ∧ (end_session chat uid eb t s).2.sessions.get? i = some (closeSess eb t sess)
          ∧ (∀ j, j ≠ i →
              (end_session chat uid eb t s).2.sessions.get? j = s.sessions.get? j)
          ∧ (end_session chat uid eb t s).2.sessions.length = s.sessions.length) :=
  ⟨end_session_of_no_active chat uid eb t s, end_session_spec chat uid eb t s⟩

/-- C8 witness: on a table with two open sessions of user 9 (starts 1 and
3), `end_session` closes one of maximal `start_at` and leaves the rest. -/
theorem C8_end_session_closes_latest_witness :
    has_active_session 5 9 dbTwoOpen = true
    ∧ (∃ i sess, dbTwoOpen.sessions.get? i = some sess
        ∧ isActiveFor 5 9 sess = true
        ∧ (∀ x ∈ dbTwoOpen.sessions, isActiveFor 5 9 x = true →
            x.start_at ≤ sess.start_at)
        ∧ (end_session 5 9 "user" 10 dbTwoOpen).1 = some (sess.start_at, sess.type)
        ∧ (end_session 5 9 "user" 10 dbTwoOpen).2.sessions.get? i
            = some (closeSess "user" 10 sess)
        ∧ (∀ j, j ≠ i → (end_session 5 9 "user" 10 dbTwoOpen).2.sessions.get? j
            = dbTwoOpen.sessions.get? j)
        ∧ (end_session 5 9 "user" 10 dbTwoOpen).2.sessions.length
            = dbTwoOpen.sessions.length) :=
  ⟨by decide, (C8_end_session_closes_latest 5 9 "user" 10 dbTwoOpen).2 (by decide)⟩

/-- C2 counterexample: user 9 has one open Call session; when the idle job
fires it closes that Call session (`active := false`, `ended_by = "auto"`),
contradicting "the idle sweep never closes an open Call session". -/
theorem C2_counterexample :
    wCallOpen.db.sessions = [⟨0, 5, 9, "call", 0, none, none, true⟩]
    ∧ (idle_timeout_job 5 9 100 wCallOpen).db.sessions
        = [⟨0, 5, 9, "call", 0, some 100, some "auto", false⟩] := by
  decide

/-- C2 amended: the idle-timeout job closes the user's most recently
started open session whatever its kind — Call sessions included: the chosen
row's type is unconstrained, and the close is `ended_by = "auto"`. -/
theorem C2_amended_idle_closes_any_kind (chat uid now : Int) (w : World)
    (i : Nat) (sess : Session) (hget : w.db.sessions.get? i = some sess)
    (hact : isActiveFor chat uid sess = true)
    (hmax : ∀ x ∈ w.db.sessions, isActiveFor chat uid x = true →
        x.start_at ≤ sess.start_at)
    (hfirst : ∀ j, j < i → ∀ x, w.db.sessions.get? j = some x →
        (isActiveFor chat uid x && x.start_at == sess.start_at) = false) :
    (idle_timeout_job chat uid now w).db.sessions.get? i
      = some (closeSess "auto" now sess) := by
  have hha : has_active_session chat uid w.db = true :=
    List.any_eq_true.mpr ⟨sess, get?_mem_sessions hget, hact⟩
  obtain ⟨e1, e2, _, _, _⟩ :=
    end_session_at chat uid "auto" now w.db i sess hget hact hmax hfirst
  unfold idle_timeout_job
  simp only [hha, if_true, e1]
  exact e2

/-- C2 amended witness: the idle job closing the open Call session. -/
theorem C2_amended_witness :
    (idle_timeout_job 5 9 100 wCallOpen).db.sessions.get? 0
      = some (closeSess "auto" 100 ⟨0, 5, 9, "call", 0, none, none, true⟩) :=
  C2_amended_idle_closes_any_kind 5 9 100 wCallOpen 0
    ⟨0, 5, 9, "call", 0, none, none, true⟩ (by decide) (by decide) (by decide)
    (fun j hj => absurd hj (Nat.not_lt_zero j))

theorem activeCount_cons (chat uid : Int) (y : Session) (l : List Session) :
    activeCount chat uid (y :: l)
      = (if isActiveFor chat uid y then 1 else 0) + activeCount chat uid l := by
  simp only [activeCount, List.filter_cons]
  split <;> simp [Nat.add_comm]

theorem activeCount_append_one (chat uid : Int) (l : List Session) (x : Session) :
    activeCount chat uid (l ++ [x])
      = activeCount chat uid l + (if isActiveFor chat uid x then 1 else 0) := by
  simp only [activeCount, List.filter_append, List.filter_cons, List.filter_nil,
    List.length_append]
  split <;> simp

theorem activeCount_eq_zero_of_no_active (chat uid : Int) (s : DBState)
    (h : has_active_session chat uid s = false) :
    activeCount chat uid s.sessions = 0 := by
  have hall : ∀ x ∈ s.sessions, ¬ isActiveFor chat uid x = true := by
    simpa [has_active_session, List.any_eq_false] using h
  simp [activeCount, List.filter_eq_nil_iff.mpr hall]

theorem closeFirstAt_activeCount_le (chat' uid' chat uid : Int) (m : Int)
    (eb : String) (t : Int) (l : List Session) :
    activeCount chat' uid' (closeFirstAt chat uid m eb t l).2
      ≤ activeCount chat' uid' l := by
  induction l with
  | nil => exact Nat.le_refl 0
  | cons y rest ih =>
      unfold closeFirstAt
      split
      · have hclosed : isActiveFor chat' uid' (closeSess eb t y) = false := by
          simp [isActiveFor, closeSess]
        rw [activeCount_cons, activeCount_cons, hclosed]
        simp only [Bool.false_eq_true, if_false]
        split <;> omega
      · rw [activeCount_cons, activeCount_cons]
        have := ih
        split <;> omega

theorem end_session_activeCount_le (chat' uid' chat uid : Int) (eb : String)
    (t : Int) (s : DBState) :
    activeCount chat' uid' (end_session chat uid eb t s).2.sessions
      ≤ activeCount chat' uid' s.sessions := by
  unfold end_session
  cases h : maxActiveStart chat uid s.sessions with
  | none => exact Nat.le_refl _
  | some m => exact closeFirstAt_activeCount_le chat' uid' chat uid m eb t s.sessions

theorem maybe_prompt_sessions (mc ownerId off chatId uid : Int) (isBot : Bool)
    (un : Option String) (fn : String) (ln : Option String) (im iv : Bool)
    (men now : Int) (w : World) :
    (maybe_prompt_session mc ownerId off chatId uid isBot un fn ln im iv men now w).db.sessions
      = w.db.sessions := by
  unfold maybe_prompt_session
  split
  · rfl
  split
  · rfl
  dsimp only
  split
  · rw [set_active_member_sessions, upsert_user_sessions]
  · split
    · split <;>
        simp [set_user_in_group_sessions, schedule_idle_job_db, bump_stat_sessions,
          set_active_member_sessions, upsert_user_sessions, schedule_idle_job]
    · simp [set_user_in_group_sessions, bump_stat_sessions,
        set_active_member_sessions, upsert_user_sessions]

theorem cmd_register_open_db (mc ownerId chatId uid : Int) (w : World) :
    (cmd_register_open mc ownerId chatId uid w).db = w.db := by
  unfold cmd_register_open
  split
  · rfl
  split
  · rfl
  split <;> rfl

theorem cb_session_select_activeCount_le (mc : Int) (kind : String)
    (a f now : Int) (w : World) (chat uid : Int)
    (h : activeCount chat uid w.db.sessions ≤ 1) :
    activeCount chat uid (cb_session_select mc kind a f now w).2.db.sessions ≤ 1 := by
  unfold cb_session_select
  split
  · exact h
  rw [cbSelect_run_true]
  cases hact : has_active_session mc f w.db with
  | true => simpa [hact] using h
  | false =>
      simp only [hact, Bool.false_eq_true, if_false, schedule_idle_job_db]
      show activeCount chat uid (add_session mc f kind now w.db).sessions ≤ 1
      unfold add_session
      rw [activeCount_append_one]
      by_cases hc : mc = chat ∧ f = uid
      · have h0 : activeCount chat uid w.db.sessions = 0 := by
          obtain ⟨rfl, rfl⟩ := hc
          exact activeCount_eq_zero_of_no_active mc f w.db hact
        split <;> omega
      · have hnew : isActiveFor chat uid
            (⟨w.db.nextId, mc, f, kind, now, none, none, true⟩ : Session) = false := by
          simp [isActiveFor]
          intro h1 h2
          exact absurd ⟨h1, h2⟩ hc
        rw [hnew]
        simpa using h

theorem cmd_register_close_activeCount_le (mc ownerId chatId uid now : Int)
    (w : World) (chat uid' : Int)
    (h : activeCount chat uid' w.db.sessions ≤ 1) :
    activeCount chat uid' (cmd_register_close mc ownerId chatId uid now w).2.db.sessions ≤ 1 := by
  unfold cmd_register_close
  split
  · exact h
  split
  · exact h
  rw [closeProg_run_true]
  cases he : (end_session mc uid "user" now w.db).1 <;>
    exact Nat.le_trans (end_session_activeCount_le chat uid' mc uid "user" now w.db) h

theorem idle_timeout_job_activeCount_le (chatId uid now : Int) (w : World)
    (chat uid' : Int) (h : activeCount chat uid' w.db.sessions ≤ 1) :
    activeCount chat uid' (idle_timeout_job chatId uid now w).db.sessions ≤ 1 := by
  unfold idle_timeout_job
  split
  · dsimp only
    cases he : (end_session chatId uid "auto" now w.db).1 <;>
      exact Nat.le_trans (end_session_activeCount_le chat uid' chatId uid "auto" now w.db) h
  · exact h

theorem step_activeCount_le (mc ownerId off : Int) (op : Op) (w : World)
    (h : ∀ chat uid, activeCount chat uid w.db.sessions ≤ 1) :
    ∀ chat uid, activeCount chat uid (step mc ownerId off op w).db.sessions ≤ 1 := by
  intro chat uid
  cases op with
  | msg chatId uid' isBot un fn ln im iv men now =>
      show activeCount chat uid
        (maybe_prompt_session mc ownerId off chatId uid' isBot un fn ln im iv men now w).db.sessions ≤ 1
      rw [maybe_prompt_sessions]
      exact h chat uid
  | openSel kind a f now =>
      exact cb_session_select_activeCount_le mc kind a f now w chat uid (h chat uid)
  | regOpen chatId uid' =>
      show activeCount chat uid (cmd_register_open mc ownerId chatId uid' w).db.sessions ≤ 1
      rw [cmd_register_open_db]
      exact h chat uid
  | regClose chatId uid' now =>
      exact cmd_register_close_activeCount_le mc ownerId chatId uid' now w chat uid (h chat uid)
  | idle chatId uid' now =>
      exact idle_timeout_job_activeCount_le chatId uid' now w chat uid (h chat uid)

theorem runOps_activeCount_le (mc ownerId off : Int) (ops : List Op) :
    ∀ chat uid, activeCount chat uid (runOps mc ownerId off ops).db.sessions ≤ 1 := by
  have main : ∀ (l : List Op) (w : World),
      (∀ chat uid, activeCount chat uid w.db.sessions ≤ 1) →
      ∀ chat uid,
        activeCount chat uid (l.foldl (fun w op => step mc ownerId off op w) w).db.sessions ≤ 1 := by
    intro l
    induction l with
    | nil => intro w h; exact h
    | cons op rest ih =>
        intro w h
        exact ih (step mc ownerId off op w) (step_activeCount_le mc ownerId off op w h)
  exact main ops initWorld (by intro chat uid; simp [initWorld, initDB, activeCount])

theorem activeKindCount_le_activeCount (chat uid : Int) (kind : String)
    (l : List Session) :
    activeKindCount chat uid kind l ≤ activeCount chat uid l := by
  induction l with
  | nil => exact Nat.le_refl 0
  | cons y rest ih =>
      simp only [activeKindCount, activeCount, List.filter_cons] at *
      cases ha : isActiveFor chat uid y <;> cases ht : (y.type == kind) <;>
        simp [ha, ht] <;> omega

/-- C1: in every state reachable by any interleaving of the tracker's
operations (group-message heartbeats, the open callback, the open and close
commands, idle-timeout firings) from the empty database, each `(user, kind)`
— indeed each user across both kinds — has at most one open session row:
the open path only inserts after `has_active_session` reports none. -/
theorem C1_at_most_one_open_session (mc ownerId off : Int) (ops : List Op)
    (chat uid : Int) (kind : String) :
    activeKindCount chat uid kind (runOps mc ownerId off ops).db.sessions ≤ 1 :=
  Nat.le_trans
    (activeKindCount_le_activeCount chat uid kind (runOps mc ownerId off ops).db.sessions)
    (runOps_activeCount_le mc ownerId off ops chat uid)

theorem lookupStats_statsUpdate (k k' : Int × Int × Int) (ins : StatsRow)
    (upd : StatsRow → StatsRow) (l : List ((Int × Int × Int) × StatsRow)) :
    lookupStats k' (statsUpdate k ins upd l)
      = if k' = k then some ((lookupStats k l).elim ins upd)
        else lookupStats k' l := by
  induction l with
  | nil =>
      by_cases h : k' = k
      · subst h; simp [statsUpdate, lookupStats]
      · have hkk : ¬ k = k' := fun hc => h hc.symm
        simp [statsUpdate, lookupStats, h, hkk]
  | cons p rest ih =>
      unfold statsUpdate
      by_cases hp : p.1 = k
      · rw [if_pos hp]
        by_cases h : k' = k
        · subst h
          simp [lookupStats, hp]
        · have hkk : ¬ k = k' := fun hc => h hc.symm
          have hne : ¬ p.1 = k' := by rw [hp]; exact hkk
          simp [lookupStats, h, hkk, hne]
      · rw [if_neg hp]
        by_cases hpk : p.1 = k'
        · have h : ¬ k' = k := fun hc => hp (by rw [hpk, hc])
          simp [lookupStats, hpk, h]
        · simp [lookupStats, hp, hpk, ih]

theorem statsUpdate_idem (k : Int × Int × Int) (ins : StatsRow)
    (upd : StatsRow → StatsRow) (l : List ((Int × Int × Int) × StatsRow))
    (h1 : upd ins = ins) (h2 : ∀ r, upd (upd r) = upd r) :
    statsUpdate k ins upd (statsUpdate k ins upd l) = statsUpdate k ins upd l := by
  induction l with
  | nil => simp [statsUpdate, h1]
  | cons p rest ih =>
      unfold statsUpdate
      by_cases hp : p.1 = k
      · simp [statsUpdate, hp, h2]
      · simp [statsUpdate, hp, ih]

theorem callFold_eq_sum (now : Int) (rows : List Session) (acc : Int) :
    rows.foldl
      (fun acc r =>
        let delta := (r.end_at.getD now) - r.start_at
        if delta > 0 then acc + delta else acc) acc
      = acc + (rows.map (callDur now)).sum := by
  induction rows generalizing acc with
  | nil => simp
  | cons r rest ih =>
      simp only [List.foldl_cons, List.map_cons, List.sum_cons]
      rw [ih]
      show (if (r.end_at.getD now) - r.start_at > 0
            then acc + ((r.end_at.getD now) - r.start_at) else acc)
          + (rest.map (callDur now)).sum
        = acc + ((if (r.end_at.getD now) - r.start_at > 0
            then (r.end_at.getD now) - r.start_at else 0)
          + (rest.map (callDur now)).sum)
      by_cases h : (r.end_at.getD now) - r.start_at > 0
      · rw [if_pos h, if_pos h]; ring
      · rw [if_neg h, if_neg h]; ring

theorem update_call_spec (chat uid d off now : Int) (s : DBState) :
    (∀ k, lookupStats k (update_call_time_aggregate_for_day chat uid d off now s).stats
        = if k = (chat, uid, d)
          then some ((lookupStats (chat, uid, d) s.stats).elim
              ({ defaultStatsRow with
                  call_time_sec := callTotal chat uid d off now s.sessions })
              (fun r => { r with
                  call_time_sec := callTotal chat uid d off now s.sessions }))
          else lookupStats k s.stats)
    ∧ (update_call_time_aggregate_for_day chat uid d off now s).sessions = s.sessions := by
  refine ⟨?_, rfl⟩
  intro k
  unfold update_call_time_aggregate_for_day
  dsimp only
  rw [lookupStats_statsUpdate, callFold_eq_sum]
  simp [callTotal]

/-- C5 counterexample: user 9 has one call session that is still open (never
closed, `end_at = null`), yet running the call-time aggregation writes
`call_time_sec = 100` for its start date — the call-seconds field is not
incremented only when a Call session closes (and it is overwritten, not
incremented, by the nightly job). -/
theorem C5_counterexample :
    dbOpenCall.sessions.all (fun sess => sess.end_at == none && sess.active) = true
    ∧ lookupStats (5, 9, 0) dbOpenCall.stats = none
    ∧ lookupStats (5, 9, 0)
        (update_call_time_aggregate_for_day 5 9 0 0 100 dbOpenCall).stats
        = some ⟨0, 0, 0, 0, 100⟩ := by
  decide

/-- C5 amended: when the (nightly) aggregation job runs for `(chat, uid, d)`
it overwrites `call_time_sec` of that day's row with the sum of the positive
whole-second durations of the user's call sessions whose `start_at` falls on
local date `d` — closed sessions by `end_at - start_at`, still-open sessions
counted up to `now` — leaving every other aggregate row and the sessions
table unchanged; a session is grouped only by the local date of its
`start_at`, so one spanning local midnight accrues entirely to its start
date.  The field is not incremented at close time. -/
theorem C5_amended_call_seconds_recomputed (chat uid d off now : Int) (s : DBState) :
    (∀ k, lookupStats k (update_call_time_aggregate_for_day chat uid d off now s).stats
        = if k = (chat, uid, d)
          then some ((lookupStats (chat, uid, d) s.stats).elim
              ({ defaultStatsRow with
                  call_time_sec := callTotal chat uid d off now s.sessions })
              (fun r => { r with
                  call_time_sec := callTotal chat uid d off now s.sessions }))
          else lookupStats k s.stats)
    ∧ (update_call_time_aggregate_for_day chat uid d off now s).sessions = s.sessions
    ∧ callTotal chat uid d off now s.sessions
        = ((s.sessions.filter (fun sess =>
            sess.chat_id == chat && sess.user_id == uid && sess.type == "call" &&
              localDate off sess.start_at == d)).map (callDur now)).sum :=
  ⟨(update_call_spec chat uid d off now s).1,
    (update_call_spec chat uid d off now s).2, rfl⟩

/-- C9: the aggregation is idempotent — running it once or any number of
further times produces the same state, and the resulting `call_time_sec` is
the sum of the positive whole-second durations of the user's call sessions
starting on that local date (open sessions counted up to `now`), because the
upsert overwrites the field instead of adding to it. -/
theorem C9_update_call_idempotent (chat uid d off now : Int) (s : DBState) (n : Nat) :
    (update_call_time_aggregate_for_day chat uid d off now)^[n + 1] s
      = update_call_time_aggregate_for_day chat uid d off now s
    ∧ ∃ r, lookupStats (chat, uid, d)
          (update_call_time_aggregate_for_day chat uid d off now s).stats = some r
        ∧ r.call_time_sec = callTotal chat uid d off now s.sessions := by
  have hidem : ∀ s' : DBState,
      update_call_time_aggregate_for_day chat uid d off now
          (update_call_time_aggregate_for_day chat uid d off now s')
        = update_call_time_aggregate_for_day chat uid d off now s' := by
    intro s'
    conv_lhs => unfold update_call_time_aggregate_for_day
    conv_rhs => unfold update_call_time_aggregate_for_day
    dsimp only
    congr 1
    exact statsUpdate_idem (chat, uid, d) _ _ s'.stats rfl (fun r => rfl)
  constructor
  · induction n with
    | zero => rfl
    | succ m ih =>
        rw [Function.iterate_succ_apply', ih, hidem]
  · have hk := (update_call_spec chat uid d off now s).1 (chat, uid, d)
    rw [if_pos rfl] at hk
    refine ⟨_, hk, ?_⟩
    cases lookupStats (chat, uid, d) s.stats <;> rfl

theorem find?_append_of_none {α : Type} (p : α → Bool) (l1 l2 : List α)
    (h : l1.find? p = none) : (l1 ++ l2).find? p = l2.find? p := by
  induction l1 with
  | nil => rfl
  | cons a rest ih =>
      have hall := List.find?_eq_none.mp h
      have ha : p a = false := by
        have := hall a (List.mem_cons_self a rest)
        simpa using this
      have hrest : rest.find? p = none :=
        List.find?_eq_none.mpr (fun x hx => hall x (List.mem_cons_of_mem a hx))
      simpa [List.find?_cons, ha] using ih hrest

theorem userInGroup_refresh (uid : Int) (un : Option String) (fn : String)
    (ln : Option String) (b : Bool) (now : Int) (l : List UserRow) :
    ((l.map (fun u =>
        if u.user_id == uid then
          { u with username := un, first_name := fn, last_name := ln,
                   is_bot := b, last_seen_at := now }
        else u)).find? (fun u => u.user_id == uid)).map (fun u => u.in_group)
      = (l.find? (fun u => u.user_id == uid)).map (fun u => u.in_group) := by
  induction l with
  | nil => rfl
  | cons u rest ih =>
      simp only [List.map_cons]
      by_cases hu : u.user_id = uid
      · have hb : (u.user_id == uid) = true := by simp [hu]
        have e1 := @List.find?_cons_of_pos UserRow (fun v : UserRow => v.user_id == uid) ({ u with username := un, first_name := fn, last_name := ln, is_bot := b, last_seen_at := now }) (rest.map (fun x => if x.user_id == uid then { x with username := un, first_name := fn, last_name := ln, is_bot := b, last_seen_at := now } else x)) hb
        have e2 := @List.find?_cons_of_pos UserRow (fun v : UserRow => v.user_id == uid) u rest hb
        rw [if_pos hb, e1, e2]
        rfl
      · have hb : ¬ (u.user_id == uid) = true := by simp [hu]
        have e1 := @List.find?_cons_of_neg UserRow (fun v : UserRow => v.user_id == uid) u (rest.map (fun x => if x.user_id == uid then { x with username := un, first_name := fn, last_name := ln, is_bot := b, last_seen_at := now } else x)) hb
        have e2 := @List.find?_cons_of_neg UserRow (fun v : UserRow => v.user_id == uid) u rest hb
        rw [if_neg hb, e1, e2, ih]

theorem userInGroup_of_users_eq (uid : Int) (s s' : DBState)
    (h : s.users = s'.users) : userInGroup uid s = userInGroup uid s' := by
  unfold userInGroup; rw [h]

theorem userInGroup_upsert (uid : Int) (un : Option String) (fn : String)
    (ln : Option String) (b : Bool) (now : Int) (s : DBState) :
    userInGroup uid (upsert_user uid un fn ln b now s)
      = some ((userInGroup uid s).getD false) := by
  unfold upsert_user userInGroup
  split
  case isTrue h =>
      rw [userInGroup_refresh]
      obtain ⟨u, hmem, hu⟩ := List.any_eq_true.mp h
      cases hf : s.users.find? (fun v => v.user_id == uid) with
      | none =>
          have := List.find?_eq_none.mp hf u hmem
          rw [hu] at this; cases this rfl
      | some v => simp [hf]
  case isFalse h =>
      have hany : s.users.any (fun v => v.user_id == uid) = false := by
        cases hc : s.users.any (fun v => v.user_id == uid) with
        | true => exact absurd hc h
        | false => rfl
      have hnone : s.users.find? (fun v => v.user_id == uid) = none := by
        apply List.find?_eq_none.mpr
        intro x hx
        have := List.any_eq_false.mp hany x hx
        simpa using this
      rw [find?_append_of_none _ _ _ hnone, hnone]
      simp [List.find?_cons]

/-- C10: a group message from a banned user refreshes the user's row
(`ensure_user`) and the `(chat, user)` last-activity record, and nothing
else: the handler returns before bumping the daily statistics, before the
check-in prompt, before scheduling the idle job, and before setting
`in_group` — statistics, jobs, sent messages, sessions and the `in_group`
flag (schema default `false` for a fresh row) are untouched. -/
theorem C10_banned_message_only_presence (mc ownerId off uid : Int)
    (un : Option String) (fn : String) (ln : Option String) (im iv : Bool)
    (men now : Int) (w : World) (hban : is_banned uid w.db = true) :
    maybe_prompt_session mc ownerId off mc uid false un fn ln im iv men now w
      = { w with db := set_active_member mc uid now (upsert_user uid un fn ln false now w.db) }
    ∧ (maybe_prompt_session mc ownerId off mc uid false un fn ln im iv men now w).db.stats
        = w.db.stats
    ∧ (maybe_prompt_session mc ownerId off mc uid false un fn ln im iv men now w).db.sessions
        = w.db.sessions
    ∧ (maybe_prompt_session mc ownerId off mc uid false un fn ln im iv men now w).jobs
        = w.jobs
    ∧ (maybe_prompt_session mc ownerId off mc uid false un fn ln im iv men now w).sent
        = w.sent
    ∧ userInGroup uid (maybe_prompt_session mc ownerId off mc uid false un fn ln im iv men now w).db
        = some ((userInGroup uid w.db).getD false) := by
  have hbans : (set_active_member mc uid now (upsert_user uid un fn ln false now w.db)).bans
      = w.db.bans := by
    rw [set_active_member_bans, upsert_user_bans]
  have hban2 := (is_banned_of_bans_eq uid _ w.db hbans).trans hban
  have hmain : maybe_prompt_session mc ownerId off mc uid false un fn ln im iv men now w
      = { w with db := set_active_member mc uid now (upsert_user uid un fn ln false now w.db) } := by
    unfold maybe_prompt_session
    rw [if_neg (by simp), if_neg (by simp)]
    dsimp only
    rw [if_pos hban2]
  refine ⟨hmain, ?_, ?_, ?_, ?_, ?_⟩
  · rw [hmain]
    show (set_active_member mc uid now (upsert_user uid un fn ln false now w.db)).stats
      = w.db.stats
    rw [set_active_member_stats, upsert_user_stats]
  · rw [hmain]
    show (set_active_member mc uid now (upsert_user uid un fn ln false now w.db)).sessions
      = w.db.sessions
    rw [set_active_member_sessions, upsert_user_sessions]
  · rw [hmain]
  · rw [hmain]
  · rw [hmain]
    show userInGroup uid (set_active_member mc uid now (upsert_user uid un fn ln false now w.db))
      = some ((userInGroup uid w.db).getD false)
    rw [userInGroup_of_users_eq uid _ _ (set_active_member_users mc uid now _)]
    exact userInGroup_upsert uid un fn ln false now w.db

/-- C10 witness: a banned user's message on the concrete banned state. -/
theorem C10_banned_message_witness :
    maybe_prompt_session 5 1 0 5 7 false none "x" none false false 0 10 wBanned
      = { wBanned with db := set_active_member 5 7 10 (upsert_user 7 none "x" none false 10 wBanned.db) }
    ∧ (maybe_prompt_session 5 1 0 5 7 false none "x" none false false 0 10 wBanned).db.stats
        = wBanned.db.stats
    ∧ (maybe_prompt_session 5 1 0 5 7 false none "x" none false false 0 10 wBanned).db.sessions
        = wBanned.db.sessions
    ∧ (maybe_prompt_session 5 1 0 5 7 false none "x" none false false 0 10 wBanned).jobs
        = wBanned.jobs
    ∧ (maybe_prompt_session 5 1 0 5 7 false none "x" none false false 0 10 wBanned).sent
        = wBanned.sent
    ∧ userInGroup 7 (maybe_prompt_session 5 1 0 5 7 false none "x" none false false 0 10 wBanned).db
        = some ((userInGroup 7 wBanned.db).getD false) :=
  C10_banned_message_only_presence 5 1 0 7 none "x" none false false 0 10 wBanned (by decide)

/-- C4 amended witness: the double chat check-in of user 11. -/
theorem C4_amended_witness :
    (cb_session_select 5 "chat" 11 11 10 initWorld).1 = some (some initWorld.db.nextId)
    ∧ (cb_session_select 5 "chat" 11 11 10 initWorld).2.db
        = add_session 5 11 "chat" 10 initWorld.db
    ∧ cb_session_select 5 "chat" 11 11 20 (cb_session_select 5 "chat" 11 11 10 initWorld).2
        = (some none,
           { (cb_session_select 5 "chat" 11 11 10 initWorld).2 with
               sent := msgAlreadyOpen :: (cb_session_select 5 "chat" 11 11 10 initWorld).2.sent }) :=
  C4_amended_second_open_refused 5 11 "chat" 10 20 initWorld (by decide)

end Souls
